import Mathlib

/-!
Verification development for the LiveKit-style end-to-end frame cryptor
(`src/api/crypto/frame_crypto_transformer.cc`).

The stateful C++ transformer is shallowly embedded as pure Lean functions:
bytes are `Nat` (copied verbatim by the code; 32-bit arithmetic is made
explicit with `% 2^32`), the per-SSRC send-counter map is a function
`Nat → Option Nat`, and each of `encryptFrame` / `decryptFrame` / `makeIv`
is a function from its inputs and the mutable state it reads to the state
it leaves behind, the frame it forwards (or `none` when dropped) and the
list of observer notifications it dispatches.

The cipher primitives (BoringSSL AES-GCM) and the participant key handler /
H.264 helper code referenced by the transformer are not part of the source
tree; they are modelled from the specification, each such definition marked
with a doc comment starting `Modelled from the spec:`.
-/

namespace FrameCryptor

/-- Byte strings of the embedding.  A byte is a `Nat`; the code only copies
payload bytes, so no `% 256` is needed except where the source truncates
(`uint8_t` casts, noted at each site). -/
abbrev Bytes := List Nat

/-- Modelled from the spec: the `FrameCryptionState` enum surfaced to the
observer (the header that declares it is not in `src/`); `kNew` is the
initial value of `last_enc_error_` / `last_dec_error_` before any edge. -/
inductive FrameCryptionState
  | kNew
  | kOk
  | kEncryptionFailed
  | kDecryptionFailed
  | kMissingKey
  | kKeyRatcheted
  | kInternalError
deriving DecidableEq

/-- Media type of the transformer (`FrameCryptorTransformer::MediaType`). -/
inductive MediaType
  | audio
  | video
deriving DecidableEq

/-- Video codec tag of a frame; `generic` stands for every codec the source
does not treat specially. -/
inductive Codec
  | h264
  | vp8
  | av1
  | generic
deriving DecidableEq

/-- A transformable frame: SSRC, RTP timestamp, key-frame flag, codec tag and
payload bytes (`TransformableFrameInterface` as used by the transformer). -/
structure Frame where
  ssrc : Nat
  timestamp : Nat
  isKeyFrame : Bool
  codec : Codec
  data : Bytes
deriving DecidableEq

/-- `FrameIsH264` (source lines 85-97): true only for a video frame whose
codec is H264. -/
def frameIsH264 (type : MediaType) (f : Frame) : Bool :=
  type = MediaType.video && f.codec = Codec.h264

/-- `NeedsRbspUnescaping` (source lines 99-105): scan indices
`i < frameSize - 3` for the three-byte pattern `0x00 0x00 0x03`. -/
def needsRbspUnescaping (d : Bytes) : Bool :=
  (List.range (d.length - 3)).any fun i =>
    d.getD i 1 = 0 && d.getD (i + 1) 1 = 0 && d.getD (i + 2) 0 = 3

/-- Modelled from the spec: `find_nalu_indices` of the H.264 helpers (the
helper sources are not in `src/`).  Returns the payload start offsets of the
NAL units, i.e. the positions immediately after a `0x000001` start code
(a `0x00000001` code contains the three-byte code, so it yields the same
payload offset). -/
def naluPayloadOffsets (d : Bytes) : List Nat :=
  (List.range d.length).filterMap fun p =>
    if 3 ≤ p ∧ d.getD (p - 3) 1 = 0 ∧ d.getD (p - 2) 1 = 0 ∧ d.getD (p - 1) 0 = 1
    then some p else none

/-- Modelled from the spec: `write_rbsp` of the H.264 helpers — insert the
emulation-prevention byte `0x03` after any `0x00 0x00` pair; the inserted
byte breaks the zero run. -/
def writeRbspGo : Nat → Bytes → Bytes
  | _, [] => []
  | z, b :: r =>
    if 2 ≤ z then 3 :: b :: writeRbspGo (if b = 0 then 1 else 0) r
    else b :: writeRbspGo (if b = 0 then z + 1 else 0) r

/-- Modelled from the spec: `write_rbsp`, starting with an empty zero run. -/
def writeRbsp (d : Bytes) : Bytes := writeRbspGo 0 d

/-- Modelled from the spec: `parse_rbsp` of the H.264 helpers — remove the
emulation-prevention `0x03` occurring in `0x00 0x00 0x03` triples. -/
def parseRbspGo : Nat → Bytes → Bytes
  | _, [] => []
  | z, b :: r =>
    if 2 ≤ z ∧ b = 3 then parseRbspGo 0 r
    else b :: parseRbspGo (if b = 0 then z + 1 else 0) r

/-- Modelled from the spec: `parse_rbsp`, starting with an empty zero run. -/
def parseRbsp (d : Bytes) : Bytes := parseRbspGo 0 d

/-- `get_unencrypted_bytes` (source lines 126-173): audio = 1 byte; AV1 = 0;
VP8 = 10 for key frames else 3; H264 = `payload_start_offset + 2` of the
first NALU of type IDR (5) or non-IDR slice (1) — the result is stored in a
`uint8_t`, hence the `% 256`; any other codec = 0.  The NALU scan of the
H.264 helpers is modelled from the spec (type = low 5 bits of the first
payload byte). -/
def getUnencryptedBytes (type : MediaType) (f : Frame) : Nat :=
  match type with
  | MediaType.audio => 1
  | MediaType.video =>
    match f.codec with
    | Codec.av1 => 0
    | Codec.vp8 => if f.isKeyFrame then 10 else 3
    | Codec.h264 =>
      match (naluPayloadOffsets f.data).find? (fun p =>
          let t := f.data.getD p 0 % 32
          t = 5 || t = 1) with
      | some p => (p + 2) % 256
      | none => 0
    | Codec.generic => 0

/-- Modelled from the spec: injective encoding of a byte string into a `Nat`
used by the ideal-AEAD tag (base 257 on the shifted bytes). -/
def encBytes (l : Bytes) : Nat := l.foldl (fun acc b => acc * 257 + (b + 1)) 0

/-- Modelled from the spec: the 16-byte AES-GCM authentication tag is treated
as an ideal MAC binding key, IV, additional data and plaintext — any change
to one of them changes the tag.  The tag byte is `4 +` a pairing so it is
never one of the RBSP-sensitive values `0..3`. -/
def gcmTag (key : Nat) (iv aad pt : Bytes) : Nat :=
  4 + Nat.pair key (Nat.pair (encBytes iv) (Nat.pair (encBytes aad) (encBytes pt)))

/-- Modelled from the spec: `aes_gcm_seal` — ciphertext of the ideal AEAD is
the plaintext followed by the 16-byte tag (tag length is fixed at 128 bits,
source lines 200-251 and 262). -/
def aesGcmSeal (key : Nat) (iv aad pt : Bytes) : Bytes :=
  pt ++ List.replicate 16 (gcmTag key iv aad pt)

/-- Modelled from the spec: `aes_gcm_open` — fails when the input is shorter
than the tag (`ErrorDataTooSmall`, source line 225) or when the recomputed
tag does not match; otherwise returns the plaintext. -/
def aesGcmOpen (key : Nat) (iv aad ct : Bytes) : Option Bytes :=
  if ct.length < 16 then none
  else if ct.drop (ct.length - 16) =
      List.replicate 16 (gcmTag key iv aad (ct.take (ct.length - 16)))
  then some (ct.take (ct.length - 16))
  else none

/-- Modelled from the spec: a `KeySet` holds the raw input material and the
key derived from it (`material` / `encryption_key`); both are abstract values
here since PBKDF2 is an external primitive. -/
structure KeySet where
  material : Nat
  encryption_key : Nat
deriving DecidableEq

/-- Modelled from the spec: `derive_keys(material, salt, bits)` computes
`encryption_key = pbkdf2(material, salt, 100000, bits/8)`; PBKDF2 is
modelled as an injective pairing of material and salt (the `bits` argument,
always 128 on the ratchet path, does not change the modelled value). -/
def deriveKeys (material salt : Nat) : KeySet :=
  ⟨material, Nat.pair material salt⟩

/-- Modelled from the spec: `ratchet_key_material` is a deterministic one-way
step whose construction is delegated; it is modelled as the successor, which
is deterministic and produces pairwise-distinct iterates. -/
def ratchetKeyMaterial (material : Nat) : Nat := material + 1

/-- Modelled from the spec: the per-participant key handler — keyring slots,
`has_valid_key` flag and decryption-failure counter (its sources are not in
`src/`). -/
structure ParticipantKeyHandler where
  keys : List (Option KeySet)
  hasValidKey : Bool
  failures : Nat
deriving DecidableEq

/-- Modelled from the spec: `get_key_set(index)` — out-of-range or empty slot
gives none. -/
def ParticipantKeyHandler.getKeySet (h : ParticipantKeyHandler) (i : Nat) : Option KeySet :=
  h.keys.getD i none

/-- Modelled from the spec: `set_key_from_material(material, index)` derives
a `KeySet` from the material with the ratchet salt and stores it at the
index, leaving the failure state alone. -/
def ParticipantKeyHandler.setKeyFromMaterial (h : ParticipantKeyHandler)
    (salt material i : Nat) : ParticipantKeyHandler :=
  { h with keys := h.keys.set i (some (deriveKeys material salt)) }

/-- Modelled from the spec: `set_has_valid_key`. -/
def ParticipantKeyHandler.setHasValidKey (h : ParticipantKeyHandler) : ParticipantKeyHandler :=
  { h with hasValidKey := true }

/-- Modelled from the spec: `decryption_failure()` increments the failure
counter and reports whether the threshold (≥ 1 failure seen) is reached; the
transformer only uses the returned boolean. -/
def ParticipantKeyHandler.decryptionFailure (h : ParticipantKeyHandler) :
    ParticipantKeyHandler × Bool :=
  ({ h with failures := h.failures + 1 }, decide (1 ≤ h.failures + 1))

/-- `KeyProviderOptions` as consumed by the transformer (the provider sources
are not in `src/`; the fields are the ones the transformer reads). -/
structure KeyProviderOptions where
  ratchetSalt : Nat
  ratchetWindowSize : Nat
  uncryptedMagicBytes : Bytes
  keyRingSize : Nat
  discardFrameWhenCryptorNotReady : Bool

/-- The edge-triggered notification pattern used at every emission site
(e.g. source lines 346-349, 425-428, 518-521, 646-649): notify only when the
new state differs from the stored `last_*_error_`, which is updated first.
Returns the new stored value and the dispatched notifications. -/
def emitIfChanged (s last : FrameCryptionState) : FrameCryptionState × List FrameCryptionState :=
  if last ≠ s then (s, [s]) else (last, [])

/-- 32-bit truncation. -/
def u32 (n : Nat) : Nat := n % 2 ^ 32

/-- `rtc::ByteBufferWriter::WriteUInt32`: big-endian bytes of a 32-bit word. -/
def u32be (n : Nat) : Bytes :=
  [n / 2 ^ 24 % 256, n / 2 ^ 16 % 256, n / 2 ^ 8 % 256, n % 256]

/-- Wrapping 32-bit subtraction `a - b`. -/
def u32sub (a b : Nat) : Nat := (u32 a + (2 ^ 32 - u32 b)) % 2 ^ 32

/-- The per-SSRC send-counter map `send_counts_`. -/
abbrev SendCounts := Nat → Option Nat

/-- `FrameCryptorTransformer::makeIv` (source lines 665-682).  When the SSRC
has no counter the local `send_count` stays 0 while the map entry is set to
a random value (`rnd` stands for `floor(rand() * 0xFFFF)`); the IV is the
big-endian triple `ssrc ‖ timestamp ‖ timestamp - (send_count % 0xFFFF)` in
32-bit arithmetic, and the map entry is then overwritten with
`send_count + 1`. -/
def makeIv (counts : SendCounts) (rnd : Nat) (ssrc timestamp : Nat) :
    Bytes × SendCounts :=
  let init : Nat × SendCounts :=
    match counts ssrc with
    | none => (0, fun s => if s = ssrc then some (u32 rnd) else counts s)
    | some c => (c, counts)
  let send_count := init.1
  let counts1 := init.2
  let iv := u32be ssrc ++ u32be timestamp ++
    u32be (u32sub timestamp (send_count % 0xFFFF))
  (iv, fun s => if s = ssrc then some (u32 (send_count + 1)) else counts1 s)

/-- The transform of the encrypt path once a key set is at hand (source lines
380-423): split the payload at the unencrypted byte count, seal the suffix
with the header as additional data, append IV and the two-byte trailer
`[iv size = 12, key_index]` (`key_index_` is a `uint8_t`, hence `% 256`),
and RBSP-escape everything after the header for H264. -/
def encryptCore (keySet : KeySet) (keyIndex pfxLen : Nat) (h264 : Bool)
    (iv : Bytes) (d : Bytes) : Bytes :=
  let header := d.take pfxLen
  let payload := d.drop pfxLen
  let buffer := aesGcmSeal keySet.encryption_key iv header payload
  let dwh := buffer ++ iv ++ [12, keyIndex % 256]
  header ++ (if h264 then writeRbsp dwh else dwh)

/-- Result of one `encryptFrame` call: the frame forwarded to the sink
(`none` = dropped), the new `last_enc_error_`, the dispatched notifications
and the new send-counter map. -/
structure EncResult where
  out : Option Frame
  lastEnc : FrameCryptionState
  events : List FrameCryptionState
  counts : SendCounts

/-- `FrameCryptorTransformer::encryptFrame` (source lines 329-437).  The
sink/enabled snapshot is passed in as booleans; a null key handler or empty
slot raises the `kMissingKey` edge; in the model sealing always succeeds
(the source fails only on an invalid key size, and keys come from the
derivation), so the `kEncryptionFailed` branch is unreachable here. -/
def encryptFrame (opts : KeyProviderOptions) (type : MediaType) (keyIndex : Nat)
    (handler? : Option ParticipantKeyHandler) (enabled sinkPresent : Bool)
    (lastEnc : FrameCryptionState) (counts : SendCounts) (rnd : Nat)
    (f : Frame) : EncResult :=
  if ¬ sinkPresent then
    let e := emitIfChanged FrameCryptionState.kInternalError lastEnc
    ⟨none, e.1, e.2, counts⟩
  else if f.data.length = 0 ∨ ¬ enabled then
    if opts.discardFrameWhenCryptorNotReady then ⟨none, lastEnc, [], counts⟩
    else ⟨some f, lastEnc, [], counts⟩
  else
    match handler?.bind (fun h => h.getKeySet keyIndex) with
    | none =>
      let e := emitIfChanged FrameCryptionState.kMissingKey lastEnc
      ⟨none, e.1, e.2, counts⟩
    | some keySet =>
      let pfxLen := getUnencryptedBytes type f
      let mi := makeIv counts rnd f.ssrc f.timestamp
      let out := encryptCore keySet keyIndex pfxLen (frameIsH264 type f) mi.1 f.data
      let e := emitIfChanged FrameCryptionState.kOk lastEnc
      ⟨some { f with data := out }, e.1, e.2, mi.2⟩

/-- The magic-byte passthrough test (source lines 476-482): non-empty
`uncrypted_magic_bytes`, payload at least that long, and the payload tail
equal to it. -/
def MagicHit (magic d : Bytes) : Prop :=
  0 < magic.length ∧ magic.length ≤ d.length ∧ d.drop (d.length - magic.length) = magic

instance (magic d : Bytes) : Decidable (MagicHit magic d) := by
  unfold MagicHit; infer_instance

/-- The IV the decrypt path reads (source lines 550-553): the twelve bytes at
positions `len - 2 - ivLength + i` of the raw payload, after the
`ivLength = 12` check. -/
def decIv (d : Bytes) : Bytes :=
  (List.range 12).map fun i => d.getD (d.length - 14 + i) 0

/-- The encrypted buffer of the decrypt path (source lines 555-564): the
payload after the unencrypted header, RBSP-unescaped when the frame is H264
and the escape pattern is present. -/
def decBody (type : MediaType) (f : Frame) : Bytes :=
  let buf := f.data.drop (getUnencryptedBytes type f)
  if frameIsH264 type f && needsRbspUnescaping buf then parseRbsp buf else buf

/-- The ciphertext-with-tag the decrypt path feeds to AES-GCM (source lines
566-569): the encrypted buffer without its last `ivLength + 2 = 14` bytes. -/
def decCt (type : MediaType) (f : Frame) : Bytes :=
  let body := decBody type f
  body.take (body.length - 14)

/-- The unencrypted header of the decrypt path (source lines 503-506). -/
def decHeader (type : MediaType) (f : Frame) : Bytes :=
  f.data.take (getUnencryptedBytes type f)

/-- Result of the ratchet recovery loop (source lines 586-615). -/
structure LoopOut where
  success : Option Bytes
  handler : ParticipantKeyHandler
  lastDec : FrameCryptionState
  events : List FrameCryptionState
  count : Nat
deriving DecidableEq

/-- The ratchet recovery loop (source lines 586-615): while attempts remain,
ratchet the current material, derive keys with the ratchet salt, and retry;
on success install the new material at the frame's key index, set the valid
flag, raise the `kKeyRatcheted` edge and stop; otherwise continue from the
new material.  `fuel` is the number of attempts left, `count` the attempts
already made (`ratchet_count`). -/
def ratchetLoop (salt ki : Nat) (iv aad ct : Bytes) :
    Nat → Nat → Nat → ParticipantKeyHandler → FrameCryptionState → LoopOut
  | 0, count, _cur, h, l => ⟨none, h, l, [], count⟩
  | fuel + 1, count, cur, h, l =>
    let newMat := ratchetKeyMaterial cur
    let rk := deriveKeys newMat salt
    match aesGcmOpen rk.encryption_key iv aad ct with
    | some pt =>
      let h' := (h.setKeyFromMaterial salt newMat ki).setHasValidKey
      let e := emitIfChanged FrameCryptionState.kKeyRatcheted l
      ⟨some pt, h', e.1, e.2, count + 1⟩
    | none => ratchetLoop salt ki iv aad ct fuel (count + 1) newMat h l

/-- Result of one `decryptFrame` call: the frame forwarded to the sink
(`none` = dropped), the handler as left behind, the new `last_dec_error_`,
the dispatched notifications, and — as an instrumentation field — the value
returned by `DecryptionFailure()` when it was consulted (`none` = not
consulted on this call). -/
structure DecResult where
  out : Option Frame
  handler : Option ParticipantKeyHandler
  lastDec : FrameCryptionState
  events : List FrameCryptionState
  consulted : Option Bool
deriving DecidableEq

/-- `FrameCryptorTransformer::decryptFrame` (source lines 439-651): sink and
empty/disabled handling; magic-byte passthrough; trailer parse with the
`ivLength = 12` check; key-index/handler/key-set validation against the key
ring; the stale-failure gate; AES-GCM open with the installed key; the
bounded ratchet recovery with its rollback condition
`!decryption_success || ratchet_count >= ratchet_window_size`; the
decryption-failure consultation; and delivery of `header ‖ plaintext`. -/
def decryptFrame (opts : KeyProviderOptions) (type : MediaType)
    (handler? : Option ParticipantKeyHandler) (enabled sinkPresent : Bool)
    (lastDec : FrameCryptionState) (f : Frame) : DecResult :=
  if ¬ sinkPresent then
    let e := emitIfChanged FrameCryptionState.kInternalError lastDec
    ⟨none, handler?, e.1, e.2, none⟩
  else if f.data.length = 0 ∨ ¬ enabled then
    if opts.discardFrameWhenCryptorNotReady then ⟨none, handler?, lastDec, [], none⟩
    else ⟨some f, handler?, lastDec, [], none⟩
  else if MagicHit opts.uncryptedMagicBytes f.data then
    ⟨some { f with data := f.data.take (f.data.length - opts.uncryptedMagicBytes.length) },
      handler?, lastDec, [], none⟩
  else
    let d := f.data
    let ivLength := d.getD (d.length - 2) 0
    let keyIndex := d.getD (d.length - 1) 0
    if ivLength ≠ 12 then
      let e := emitIfChanged FrameCryptionState.kDecryptionFailed lastDec
      ⟨none, handler?, e.1, e.2, none⟩
    else
      match handler? with
      | none =>
        let e := emitIfChanged FrameCryptionState.kMissingKey lastDec
        ⟨none, none, e.1, e.2, none⟩
      | some h =>
        match (if keyIndex < opts.keyRingSize then h.getKeySet keyIndex else none) with
        | none =>
          let e := emitIfChanged FrameCryptionState.kMissingKey lastDec
          ⟨none, some h, e.1, e.2, none⟩
        | some keySet =>
          if lastDec = FrameCryptionState.kDecryptionFailed ∧ ¬ h.hasValidKey then
            ⟨none, some h, lastDec, [], none⟩
          else
            let header := decHeader type f
            let iv := decIv d
            let ct := decCt type f
            match aesGcmOpen keySet.encryption_key iv header ct with
            | some pt =>
              let e := emitIfChanged FrameCryptionState.kOk lastDec
              ⟨some { f with data := header ++ pt }, some h, e.1, e.2, none⟩
            | none =>
              if 0 < opts.ratchetWindowSize then
                let lo := ratchetLoop opts.ratchetSalt keyIndex iv header ct
                  opts.ratchetWindowSize 0 keySet.material h lastDec
                let h1 :=
                  if lo.success = none ∨ opts.ratchetWindowSize ≤ lo.count then
                    lo.handler.setKeyFromMaterial opts.ratchetSalt keySet.material keyIndex
                  else lo.handler
                match lo.success with
                | some pt =>
                  let e := emitIfChanged FrameCryptionState.kOk lo.lastDec
                  ⟨some { f with data := header ++ pt }, some h1, e.1,
                    lo.events ++ e.2, none⟩
                | none =>
                  let df := h1.decryptionFailure
                  if df.2 then
                    let e := emitIfChanged FrameCryptionState.kDecryptionFailed lo.lastDec
                    ⟨none, some df.1, e.1, lo.events ++ e.2, some df.2⟩
                  else ⟨none, some df.1, lo.lastDec, lo.events, some df.2⟩
              else
                let df := h.decryptionFailure
                if df.2 then
                  let e := emitIfChanged FrameCryptionState.kDecryptionFailed lastDec
                  ⟨none, some df.1, e.1, e.2, some df.2⟩
                else ⟨none, some df.1, lastDec, [], some df.2⟩

/-- Whether a decrypt call gets past the early checks — sink registered,
non-empty payload, cryption enabled, no magic-byte passthrough (source lines
453-499) — and therefore reaches the trailer parsing. -/
def decryptProceedsPastEarlyChecks (opts : KeyProviderOptions)
    (enabled sinkPresent : Bool) (f : Frame) : Bool :=
  sinkPresent && decide (f.data.length ≠ 0) && enabled &&
    !(decide (MagicHit opts.uncryptedMagicBytes f.data))

/-- The in-bounds conditions of the size_t index arithmetic performed by the
decrypt path before the AES-GCM call, one conjunct per access:
`2 ≤ len` for the trailer reads `date_in[len-2]`, `date_in[len-1]` (source
lines 509-510); `pfxLen ≤ len` for the header copy `date_in[i]`, `i < pfxLen`
and the allocation of size `len - unencrypted_bytes` (lines 503-505, 555);
`14 ≤ len` for the IV reads `date_in[len - 2 - ivLength + i]` with
`ivLength = 12` (line 552); `14 ≤ bodyLen` for the allocation of size
`bodyLen - ivLength - 2` (line 566, `bodyLen` the encrypted-buffer size after
any RBSP unescaping); and, for H264 frames, `pfxLen + 3 ≤ len` for the
`NeedsRbspUnescaping` scan bound `frameSize - 3` (line 100). -/
def decryptAccessesInBounds (len pfxLen bodyLen : Nat) (h264 : Bool) : Bool :=
  decide (2 ≤ len) && decide (pfxLen ≤ len) && decide (14 ≤ len) &&
    decide (14 ≤ bodyLen) && (!h264 || decide (pfxLen + 3 ≤ len))

/-- `n + 1` successive `makeIv` calls for the same SSRC and timestamp,
threading the counter map; `(makeIvCalls ... n).1` is the IV of call `n`. -/
def makeIvCalls (counts : SendCounts) (rnd ssrc ts : Nat) : Nat → Bytes × SendCounts
  | 0 => makeIv counts rnd ssrc ts
  | n + 1 => makeIv (makeIvCalls counts rnd ssrc ts n).2 rnd ssrc ts

/-- The edge-triggering invariant of one direction: starting from stored
state `l0`, the dispatched notifications `ev` never repeat an adjacent value
(in particular the first differs from `l0`), and the stored state `lv` after
the run is the last dispatched value (or `l0` when nothing was dispatched). -/
def ChainOk (l0 lv : FrameCryptionState) (ev : List FrameCryptionState) : Prop :=
  List.Chain' (fun a b => a ≠ b) (l0 :: ev) ∧ lv = ev.getLastD l0

/-- One frame handed to `Transform`: sender frames go to the encrypt path
(with the random seed `makeIv` would draw), receiver frames to the decrypt
path (source lines 299-327). -/
inductive Op
  | enc (rnd : Nat) (f : Frame)
  | dec (f : Frame)

/-- The mutable transformer state threaded across frames: the shared key
handler, `last_enc_error_`, `last_dec_error_` and the send-counter map. -/
structure TState where
  handler : Option ParticipantKeyHandler
  lastEnc : FrameCryptionState
  lastDec : FrameCryptionState
  counts : SendCounts

/-- The state left by a run together with the notifications dispatched for
each direction. -/
structure RunOut where
  state : TState
  encEvents : List FrameCryptionState
  decEvents : List FrameCryptionState

/-- Processing of a single frame on the transformer's worker. -/
def stepOp (opts : KeyProviderOptions) (type : MediaType) (keyIndex : Nat)
    (enabled sinkPresent : Bool) (s : TState) : Op → RunOut
  | Op.enc rnd f =>
    let r := encryptFrame opts type keyIndex s.handler enabled sinkPresent
      s.lastEnc s.counts rnd f
    ⟨⟨s.handler, r.lastEnc, s.lastDec, r.counts⟩, r.events, []⟩
  | Op.dec f =>
    let r := decryptFrame opts type s.handler enabled sinkPresent s.lastDec f
    ⟨⟨r.handler, s.lastEnc, r.lastDec, s.counts⟩, [], r.events⟩

/-- Processing of a sequence of frames in order, concatenating the
notifications of each direction. -/
def runOps (opts : KeyProviderOptions) (type : MediaType) (keyIndex : Nat)
    (enabled sinkPresent : Bool) : TState → List Op → RunOut
  | s, [] => ⟨s, [], []⟩
  | s, op :: ops =>
    let r1 := stepOp opts type keyIndex enabled sinkPresent s op
    let r2 := runOps opts type keyIndex enabled sinkPresent r1.state ops
    ⟨r2.state, r1.encEvents ++ r2.encEvents, r1.decEvents ++ r2.decEvents⟩

/-- The empty send-counter map. -/
def noCounts : SendCounts := fun _ => none

/-- Concrete H264 frame for the round-trip failure: no NALU start codes (so
the unencrypted byte count is 0) and SSRC 0, whose IV therefore begins with
four zero bytes and is RBSP-escaped by the encrypt path. -/
def c1frame : Frame := ⟨0, 0x04050607, false, Codec.h264, [9, 9]⟩

/-- The key handler both sides of the C1 round trip use (same key set at
index 0). -/
def c1Handler : ParticipantKeyHandler := ⟨[some (deriveKeys 0 5)], true, 0⟩

/-- Options for the C1 round trip: salt 5, ratcheting disabled, no magic
bytes, key ring of one. -/
def opts1 : KeyProviderOptions := ⟨5, 0, [], 1, false⟩

/-- The encrypted C1 frame as produced by the encrypt path. -/
def c1enc : Frame :=
  match (encryptFrame opts1 MediaType.video 0 (some c1Handler) true true
      FrameCryptionState.kNew noCounts 0 c1frame).out with
  | some f => f
  | none => ⟨0, 0, false, Codec.generic, []⟩

/-- Concrete audio frame for the last-attempt ratchet scenario. -/
def c2frame : Frame := ⟨3, 4, false, Codec.generic, [7, 8, 9]⟩

/-- The sender's handler for C2: material ratcheted once, `ratchet(0) = 1`,
installed at index 0. -/
def c2senderH : ParticipantKeyHandler := ⟨[some (deriveKeys 1 5)], true, 0⟩

/-- The receiver's handler for C2: the original material 0 at index 0 (the
valid-key flag still unset). -/
def c2receiverH : ParticipantKeyHandler := ⟨[some (deriveKeys 0 5)], false, 0⟩

/-- Options for C2: salt 5 and a ratchet window of exactly one attempt. -/
def opts2 : KeyProviderOptions := ⟨5, 1, [], 2, false⟩

/-- The C2 frame as encrypted by the sender under `ratchet^1(0)`. -/
def c2enc : Frame :=
  match (encryptFrame opts2 MediaType.audio 0 (some c2senderH) true true
      FrameCryptionState.kNew noCounts 0 c2frame).out with
  | some f => f
  | none => ⟨0, 0, false, Codec.generic, []⟩

/-! ### Helper lemmas -/

lemma makeIv_fst (counts : SendCounts) (rnd ssrc ts : Nat) :
    (makeIv counts rnd ssrc ts).1 =
      u32be ssrc ++ u32be ts ++ u32be (u32sub ts ((counts ssrc).getD 0 % 0xFFFF)) := by
  cases h : counts ssrc <;> simp [makeIv, h]

lemma makeIv_snd_self (counts : SendCounts) (rnd ssrc ts : Nat) :
    (makeIv counts rnd ssrc ts).2 ssrc = some (u32 ((counts ssrc).getD 0 + 1)) := by
  cases h : counts ssrc <;> simp [makeIv, h]

lemma makeIv_snd_other (counts : SendCounts) (rnd ssrc ts s : Nat) (hs : s ≠ ssrc) :
    (makeIv counts rnd ssrc ts).2 s = counts s := by
  cases h : counts ssrc <;> simp [makeIv, h, hs]

lemma makeIvCalls_counter (counts : SendCounts) (rnd ssrc ts : Nat) :
    ∀ n, (makeIvCalls counts rnd ssrc ts n).2 ssrc =
      some (u32 ((counts ssrc).getD 0 + n + 1)) := by
  intro n
  induction n with
  | zero =>
    rw [makeIvCalls, makeIv_snd_self]
  | succ n ih =>
    rw [makeIvCalls, makeIv_snd_self, ih]
    simp only [Option.getD_some]
    congr 1
    unfold u32
    omega

lemma makeIvCalls_iv (counts : SendCounts) (rnd ssrc ts : Nat) :
    ∀ n, (counts ssrc).getD 0 + n < 2 ^ 32 →
      (makeIvCalls counts rnd ssrc ts n).1 =
        u32be ssrc ++ u32be ts ++
          u32be (u32sub ts (((counts ssrc).getD 0 + n) % 0xFFFF)) := by
  intro n
  cases n with
  | zero => intro h; rw [makeIvCalls, makeIv_fst]; norm_num
  | succ n =>
    intro h
    rw [makeIvCalls, makeIv_fst, makeIvCalls_counter counts rnd ssrc ts n]
    simp only [Option.getD_some]
    rw [show u32 ((counts ssrc).getD 0 + n + 1) = (counts ssrc).getD 0 + (n + 1) from by
      unfold u32
      omega]

lemma u32be_inj {a b : Nat} (ha : a < 2 ^ 32) (hb : b < 2 ^ 32)
    (h : u32be a = u32be b) : a = b := by
  simp only [u32be, List.cons.injEq, and_true] at h
  omega

lemma u32sub_right_inj {t a b : Nat} (ha : a < 2 ^ 32) (hb : b < 2 ^ 32)
    (h : u32sub t a = u32sub t b) : a = b := by
  unfold u32sub u32 at h
  omega

lemma u32sub_lt (t a : Nat) : u32sub t a < 2 ^ 32 := by
  unfold u32sub
  omega

lemma getD_set_self {α : Type} (l : List α) (i : Nat) (a d : α) (h : i < l.length) :
    (l.set i a).getD i d = a := by
  rw [List.getD_eq_getElem?_getD, List.getElem?_set_eq_of_lt a h]
  rfl

lemma getD_some_lt {α : Type} {l : List (Option α)} {i : Nat} {x : α}
    (h : l.getD i none = some x) : i < l.length := by
  by_contra hlt
  rw [List.getD_eq_default _ _ (by omega)] at h
  exact Option.noConfusion h

lemma decryptionFailure_snd (h : ParticipantKeyHandler) :
    h.decryptionFailure.2 = true :=
  decide_eq_true (by omega)

lemma ratchetLoop_allFail (salt ki : Nat) (iv aad ct : Bytes) :
    ∀ fuel cur count (h : ParticipantKeyHandler) (l : FrameCryptionState),
      (∀ j, 1 ≤ j → j ≤ fuel →
        aesGcmOpen (deriveKeys (cur + j) salt).encryption_key iv aad ct = none) →
      ratchetLoop salt ki iv aad ct fuel count cur h l = ⟨none, h, l, [], count + fuel⟩ := by
  intro fuel
  induction fuel with
  | zero => intro cur count h l _; rfl
  | succ fuel ih =>
    intro cur count h l hfail
    have h1 : aesGcmOpen (deriveKeys (ratchetKeyMaterial cur) salt).encryption_key
        iv aad ct = none := by
      have h2 := hfail 1 le_rfl (by omega)
      rw [show cur + 1 = ratchetKeyMaterial cur from rfl] at h2
      exact h2
    have h3 : ∀ j, 1 ≤ j → j ≤ fuel →
        aesGcmOpen (deriveKeys (ratchetKeyMaterial cur + j) salt).encryption_key
          iv aad ct = none := by
      intro j hj1 hj2
      have h4 := hfail (j + 1) (by omega) (by omega)
      rw [show cur + (j + 1) = ratchetKeyMaterial cur + j from by
        unfold ratchetKeyMaterial; omega] at h4
      exact h4
    simp only [ratchetLoop, h1]
    rw [ih (ratchetKeyMaterial cur) (count + 1) h l h3]
    congr 1
    omega

lemma emit_mem {s l e : FrameCryptionState} (h : e ∈ (emitIfChanged s l).2) : e = s := by
  unfold emitIfChanged at h
  split at h
  · simpa using h
  · simp at h

lemma dfail_not_mem_emit (s l : FrameCryptionState)
    (hs : s ≠ FrameCryptionState.kDecryptionFailed) :
    FrameCryptionState.kDecryptionFailed ∉ (emitIfChanged s l).2 :=
  fun hc => hs (emit_mem hc).symm

lemma ratchetLoop_events_mem (salt ki : Nat) (iv aad ct : Bytes) :
    ∀ fuel count cur (h : ParticipantKeyHandler) (l : FrameCryptionState)
      (e : FrameCryptionState),
      e ∈ (ratchetLoop salt ki iv aad ct fuel count cur h l).events →
      e = FrameCryptionState.kKeyRatcheted := by
  intro fuel
  induction fuel with
  | zero => intro _ _ _ _ e he; simp [ratchetLoop] at he
  | succ fuel ih =>
    intro count cur h l e he
    rcases hopen : aesGcmOpen (deriveKeys (ratchetKeyMaterial cur) salt).encryption_key
        iv aad ct with _ | pt
    · simp only [ratchetLoop, hopen] at he
      exact ih _ _ _ _ _ he
    · simp only [ratchetLoop, hopen] at he
      exact emit_mem he

lemma getLastD_append {α : Type} (l0 : α) (e1 e2 : List α) :
    (e1 ++ e2).getLastD l0 = e2.getLastD (e1.getLastD l0) := by
  induction e1 generalizing l0 with
  | nil => rfl
  | cons a t ih => rw [List.cons_append, List.getLastD_cons, ih, List.getLastD_cons]

lemma cons_getLast? {α : Type} (l0 : α) (e : List α) :
    (l0 :: e).getLast? = some (e.getLastD l0) := by
  induction e generalizing l0 with
  | nil => rfl
  | cons a t ih => rw [List.getLast?_cons_cons, ih, List.getLastD_cons]

lemma chainOk_nil (l0 : FrameCryptionState) : ChainOk l0 l0 [] :=
  ⟨List.chain'_singleton l0, rfl⟩

lemma chainOk_emit (s l : FrameCryptionState) :
    ChainOk l (emitIfChanged s l).1 (emitIfChanged s l).2 := by
  unfold emitIfChanged ChainOk
  split
  · rename_i hne
    exact ⟨by simp [List.chain'_cons, hne], rfl⟩
  · exact ⟨List.chain'_singleton l, rfl⟩

lemma chainOk_append {l0 l1 l2 : FrameCryptionState}
    {e1 e2 : List FrameCryptionState}
    (h1 : ChainOk l0 l1 e1) (h2 : ChainOk l1 l2 e2) : ChainOk l0 l2 (e1 ++ e2) := by
  obtain ⟨c1, g1⟩ := h1
  obtain ⟨c2, g2⟩ := h2
  constructor
  · rw [show l0 :: (e1 ++ e2) = (l0 :: e1) ++ e2 from rfl, List.chain'_append]
    refine ⟨c1, c2.tail, ?_⟩
    intro x hx y hy
    rw [cons_getLast? l0 e1, Option.mem_def, Option.some_inj] at hx
    cases e2 with
    | nil => simp at hy
    | cons b t =>
      rw [List.head?_cons, Option.mem_def, Option.some_inj] at hy
      have hne := (List.chain'_cons.mp c2).1
      rw [g1] at hne
      rw [hx, hy] at hne
      exact hne
  · rw [getLastD_append, ← g1, ← g2]

lemma ratchetLoop_chainOk (salt ki : Nat) (iv aad ct : Bytes) :
    ∀ fuel count cur (h : ParticipantKeyHandler) (l : FrameCryptionState),
      ChainOk l (ratchetLoop salt ki iv aad ct fuel count cur h l).lastDec
        (ratchetLoop salt ki iv aad ct fuel count cur h l).events := by
  intro fuel
  induction fuel with
  | zero => intro _ _ _ l; exact chainOk_nil l
  | succ fuel ih =>
    intro count cur h l
    rcases hopen : aesGcmOpen (deriveKeys (ratchetKeyMaterial cur) salt).encryption_key
        iv aad ct with _ | pt
    · simp only [ratchetLoop, hopen]
      exact ih _ _ _ _
    · simp only [ratchetLoop, hopen]
      exact chainOk_emit _ _

lemma encryptFrame_chainOk (opts : KeyProviderOptions) (type : MediaType)
    (keyIndex : Nat) (handler? : Option ParticipantKeyHandler)
    (enabled sinkPresent : Bool) (lastEnc : FrameCryptionState)
    (counts : SendCounts) (rnd : Nat) (f : Frame) :
    ChainOk lastEnc
      (encryptFrame opts type keyIndex handler? enabled sinkPresent lastEnc counts rnd f).lastEnc
      (encryptFrame opts type keyIndex handler? enabled sinkPresent lastEnc counts rnd f).events := by
  simp only [encryptFrame]
  repeat' split
  all_goals first
    | exact chainOk_emit _ _
    | exact chainOk_nil _

lemma decryptFrame_chainOk (opts : KeyProviderOptions) (type : MediaType)
    (handler? : Option ParticipantKeyHandler) (enabled sinkPresent : Bool)
    (lastDec : FrameCryptionState) (f : Frame) :
    ChainOk lastDec
      (decryptFrame opts type handler? enabled sinkPresent lastDec f).lastDec
      (decryptFrame opts type handler? enabled sinkPresent lastDec f).events := by
  simp only [decryptFrame]
  repeat' split
  all_goals first
    | exact chainOk_emit _ _
    | exact chainOk_nil _
    | exact chainOk_append (ratchetLoop_chainOk _ _ _ _ _ _ _ _ _ _) (chainOk_emit _ _)
    | exact ratchetLoop_chainOk _ _ _ _ _ _ _ _ _ _

lemma runOps_chainOk (opts : KeyProviderOptions) (type : MediaType)
    (keyIndex : Nat) (enabled sinkPresent : Bool) :
    ∀ (ops : List Op) (s : TState),
      ChainOk s.lastEnc
        (runOps opts type keyIndex enabled sinkPresent s ops).state.lastEnc
        (runOps opts type keyIndex enabled sinkPresent s ops).encEvents
      ∧ ChainOk s.lastDec
        (runOps opts type keyIndex enabled sinkPresent s ops).state.lastDec
        (runOps opts type keyIndex enabled sinkPresent s ops).decEvents := by
  intro ops
  induction ops with
  | nil => intro s; exact ⟨chainOk_nil _, chainOk_nil _⟩
  | cons op ops ih =>
    intro s
    cases op with
    | enc rnd f =>
      simp only [runOps, stepOp, List.nil_append]
      have hih := ih ⟨s.handler,
        (encryptFrame opts type keyIndex s.handler enabled sinkPresent
          s.lastEnc s.counts rnd f).lastEnc,
        s.lastDec,
        (encryptFrame opts type keyIndex s.handler enabled sinkPresent
          s.lastEnc s.counts rnd f).counts⟩
      exact ⟨chainOk_append (encryptFrame_chainOk _ _ _ _ _ _ _ _ _ _) hih.1, hih.2⟩
    | dec f =>
      simp only [runOps, stepOp, List.nil_append]
      have hih := ih ⟨(decryptFrame opts type s.handler enabled sinkPresent
          s.lastDec f).handler,
        s.lastEnc,
        (decryptFrame opts type s.handler enabled sinkPresent s.lastDec f).lastDec,
        s.counts⟩
      exact ⟨hih.1, chainOk_append (decryptFrame_chainOk _ _ _ _ _ _ _) hih.2⟩

/-! ### Claim theorems -/

/-- C4: corrected. The source computes the third IV word as
`timestamp - (send_count % 0xFFFF)`, not `timestamp - (send_count % 0x10000)`
as the claim states; with the counter at `0xFFFF` the two differ.  This
counterexample evaluates `makeIv` on a map whose counter for SSRC 7 is
`0xFFFF` and shows the emitted IV is not the claim's byte string. -/
theorem c4_makeIv_counterexample :
    (makeIv (fun s => if s = 7 then some 0xFFFF else none) 0 7 0x10000).1 ≠
      u32be 7 ++ u32be 0x10000 ++ u32be (u32sub 0x10000 (0xFFFF % 0x10000)) := by
  decide

/-- C4: the amended claim — with `c` the stored counter for the SSRC (0 when
absent, the random initialization being immediately overwritten), the emitted
IV is `ssrc(4) ‖ timestamp(4) ‖ (timestamp - (c mod 0xFFFF))(4)` in wrapping
32-bit arithmetic, and the stored counter afterwards is `c + 1` (as a 32-bit
value). -/
theorem c4_makeIv_amended (counts : SendCounts) (rnd ssrc ts : Nat) :
    (makeIv counts rnd ssrc ts).1 =
      u32be ssrc ++ u32be ts ++ u32be (u32sub ts ((counts ssrc).getD 0 % 0xFFFF))
    ∧ (makeIv counts rnd ssrc ts).2 ssrc = some (u32 ((counts ssrc).getD 0 + 1)) :=
  ⟨makeIv_fst counts rnd ssrc ts, makeIv_snd_self counts rnd ssrc ts⟩

/-- C5: confirmed. For a fixed SSRC and a fixed timestamp, the IVs emitted by
successive `makeIv` calls are pairwise distinct as long as fewer than
`0xFFFF` calls separate them (the wrap of the counter residue) and the 32-bit
counter itself has not wrapped. -/
theorem c5_iv_uniqueness (counts : SendCounts) (rnd ssrc ts i j : Nat)
    (hij : i < j) (hwin : j - i < 0xFFFF)
    (hwrap : (counts ssrc).getD 0 + j < 2 ^ 32) :
    (makeIvCalls counts rnd ssrc ts i).1 ≠ (makeIvCalls counts rnd ssrc ts j).1 := by
  rw [makeIvCalls_iv counts rnd ssrc ts i (by omega),
      makeIvCalls_iv counts rnd ssrc ts j (by omega)]
  intro heq
  have heq' : u32be ssrc ++ (u32be ts ++
        u32be (u32sub ts (((counts ssrc).getD 0 + i) % 0xFFFF))) =
      u32be ssrc ++ (u32be ts ++
        u32be (u32sub ts (((counts ssrc).getD 0 + j) % 0xFFFF))) := by
    simpa [List.append_assoc] using heq
  have h2 := List.append_cancel_left heq'
  have h3 := List.append_cancel_left h2
  have h4 := u32be_inj (u32sub_lt _ _) (u32sub_lt _ _) h3
  have h5 := u32sub_right_inj (t := ts)
    (by omega : ((counts ssrc).getD 0 + i) % 0xFFFF < 2 ^ 32)
    (by omega : ((counts ssrc).getD 0 + j) % 0xFFFF < 2 ^ 32) h4
  omega

/-- C5 witness: two successive calls on a fresh SSRC yield distinct IVs. -/
theorem c5_iv_uniqueness_witness :
    (0 : Nat) < 1 ∧ 1 - 0 < 0xFFFF ∧ (noCounts 9).getD 0 + 1 < 2 ^ 32 ∧
      (makeIvCalls noCounts 0 9 100 0).1 ≠ (makeIvCalls noCounts 0 9 100 1).1 :=
  ⟨by decide, by decide, by decide,
    c5_iv_uniqueness noCounts 0 9 100 0 1 (by decide) (by decide) (by decide)⟩

/-- C10: confirmed. The first `makeIv` call for an SSRC uses counter value 0
— the third IV word equals the timestamp — and leaves the stored counter at
1; the random value written on first use is overwritten by the
post-increment and never influences the emitted IV or any later state. -/
theorem c10_first_iv (counts : SendCounts) (rnd rnd' ssrc ts : Nat)
    (h : counts ssrc = none) (hts : ts < 2 ^ 32) :
    (makeIv counts rnd ssrc ts).1 = u32be ssrc ++ u32be ts ++ u32be ts
    ∧ (makeIv counts rnd ssrc ts).2 ssrc = some 1
    ∧ (makeIv counts rnd ssrc ts).1 = (makeIv counts rnd' ssrc ts).1
    ∧ ∀ s, (makeIv counts rnd ssrc ts).2 s = (makeIv counts rnd' ssrc ts).2 s := by
  refine ⟨?_, ?_, ?_, ?_⟩
  · rw [makeIv_fst, h]
    have hz : u32sub ts ((Option.getD (α := Nat) none 0) % 0xFFFF) = ts := by
      unfold u32sub u32
      simp only [Option.getD_none]
      omega
    rw [hz]
  · rw [makeIv_snd_self, h]
    norm_num [u32]
  · rw [makeIv_fst, makeIv_fst]
  · intro s
    by_cases hs : s = ssrc
    · subst hs
      rw [makeIv_snd_self, makeIv_snd_self]
    · rw [makeIv_snd_other _ _ _ _ _ hs, makeIv_snd_other _ _ _ _ _ hs]

/-- C10 witness: concrete first call for SSRC 1 at timestamp 2. -/
theorem c10_first_iv_witness :
    noCounts 1 = none ∧ (2 : Nat) < 2 ^ 32 ∧
      (makeIv noCounts 5 1 2).1 = u32be 1 ++ u32be 2 ++ u32be 2 ∧
      (makeIv noCounts 5 1 2).2 1 = some 1 :=
  ⟨rfl, by decide, (c10_first_iv noCounts 5 6 1 2 rfl (by decide)).1,
    (c10_first_iv noCounts 5 6 1 2 rfl (by decide)).2.1⟩

/-- C7: confirmed. With non-empty magic bytes, a payload `p ‖ magic` is
forwarded with payload exactly `p`: the handler is left untouched, no
notification is dispatched, `last_dec_error_` is unchanged,
`DecryptionFailure()` is never consulted, and the outcome does not depend on
the installed key handler at all (the check precedes the trailer parse). -/
theorem c7_magic_passthrough (opts : KeyProviderOptions) (type : MediaType)
    (h1 h2 : Option ParticipantKeyHandler) (lastDec : FrameCryptionState)
    (p : Bytes) (f : Frame)
    (hmagic : opts.uncryptedMagicBytes ≠ [])
    (hdata : f.data = p ++ opts.uncryptedMagicBytes) :
    (decryptFrame opts type h1 true true lastDec f).out = some { f with data := p }
    ∧ (decryptFrame opts type h1 true true lastDec f).handler = h1
    ∧ (decryptFrame opts type h1 true true lastDec f).events = []
    ∧ (decryptFrame opts type h1 true true lastDec f).lastDec = lastDec
    ∧ (decryptFrame opts type h1 true true lastDec f).consulted = none
    ∧ (decryptFrame opts type h1 true true lastDec f).out =
        (decryptFrame opts type h2 true true lastDec f).out := by
  have hm : 0 < opts.uncryptedMagicBytes.length := List.length_pos.mpr hmagic
  have hlen : f.data.length = p.length + opts.uncryptedMagicBytes.length := by
    rw [hdata, List.length_append]
  have hsub : f.data.length - opts.uncryptedMagicBytes.length = p.length := by omega
  have hhit : MagicHit opts.uncryptedMagicBytes f.data :=
    ⟨hm, by omega, by rw [hsub, hdata, List.drop_left]⟩
  have hd : f.data.take (f.data.length - opts.uncryptedMagicBytes.length) = p := by
    rw [hsub, hdata, List.take_left]
  have hkey : ∀ hh : Option ParticipantKeyHandler,
      decryptFrame opts type hh true true lastDec f =
        ⟨some { f with data := p }, hh, lastDec, [], none⟩ := by
    intro hh
    have hne : ¬ (f.data.length = 0 ∨ ¬ ((true : Bool) = true)) := by
      rintro (h0 | hb)
      · omega
      · exact hb rfl
    unfold decryptFrame
    rw [if_neg (show ¬ ¬ ((true : Bool) = true) from fun hb => hb rfl),
      if_neg hne, if_pos hhit, hd]
  rw [hkey h1, hkey h2]
  exact ⟨rfl, rfl, rfl, rfl, rfl, rfl⟩

/-- C7 witness: payload `[9]` with magic bytes `[1, 2]` appended passes
through with payload `[9]`. -/
theorem c7_magic_passthrough_witness :
    ((⟨0, 0, [1, 2], 1, false⟩ : KeyProviderOptions).uncryptedMagicBytes ≠ []) ∧
    (decryptFrame ⟨0, 0, [1, 2], 1, false⟩ MediaType.audio none true true
        FrameCryptionState.kNew ⟨4, 5, false, Codec.generic, [9, 1, 2]⟩).out =
      some ⟨4, 5, false, Codec.generic, [9]⟩ :=
  ⟨by decide,
    (c7_magic_passthrough ⟨0, 0, [1, 2], 1, false⟩ MediaType.audio none none
      FrameCryptionState.kNew [9] ⟨4, 5, false, Codec.generic, [9, 1, 2]⟩
      (by decide) rfl).1⟩

/-- C1: code_bug evaluation at the failing input. `c1frame` is an H264 video
frame with payload at least as long as its unencrypted byte count, with the
same key set installed at index 0 on both sides, both transformers enabled
and a sink registered, yet decrypt drops the frame instead of delivering the
original payload: the encrypt path RBSP-escapes the `ciphertext ‖ IV ‖
trailer` region and the SSRC-0 IV begins with `00 00 00 00`, so emulation
bytes are inserted inside the IV; the decrypt path reads the IV from fixed
trailer-relative positions of the still-escaped bytes (source lines 550-553)
and authentication fails. -/
theorem c1_roundTrip_fails_on_h264 :
    getUnencryptedBytes MediaType.video c1frame ≤ c1frame.data.length
    ∧ (encryptFrame opts1 MediaType.video 0 (some c1Handler) true true
        FrameCryptionState.kNew noCounts 0 c1frame).out = some c1enc
    ∧ (decryptFrame opts1 MediaType.video (some c1Handler) true true
        FrameCryptionState.kNew c1enc).out = none :=
  ⟨by decide, rfl, rfl⟩

/-- C2: code_bug evaluation at the failing input. The receiver holds
material 0 at index 0 and the frame was encrypted under `ratchet^1(0) = 1`
with `ratchet_window_size = 1`, so `k = ratchet_window_size`: decryption
succeeds on the ratchet attempt, the frame is delivered, `kKeyRatcheted` is
emitted and `has_valid_key` is set — but the rollback condition
`!decryption_success || ratchet_count >= ratchet_window_size` (source lines
623-626) also fires on this success, so the handler's material at index 0 is
back to 0 when the call returns instead of the sender's material 1 the claim
requires. -/
theorem c2_ratchet_lastAttempt_rollback :
    (decryptFrame opts2 MediaType.audio (some c2receiverH) true true
        FrameCryptionState.kNew c2enc).out = some { c2enc with data := [7, 8, 9] }
    ∧ (decryptFrame opts2 MediaType.audio (some c2receiverH) true true
        FrameCryptionState.kNew c2enc).events =
        [FrameCryptionState.kKeyRatcheted, FrameCryptionState.kOk]
    ∧ ((decryptFrame opts2 MediaType.audio (some c2receiverH) true true
        FrameCryptionState.kNew c2enc).handler.bind
          (fun hh => hh.getKeySet 0)).map KeySet.material = some 0
    ∧ (decryptFrame opts2 MediaType.audio (some c2receiverH) true true
        FrameCryptionState.kNew c2enc).handler.map
          ParticipantKeyHandler.hasValidKey = some true :=
  ⟨rfl, rfl, rfl, rfl⟩

/-- C3: confirmed. When the ratchet loop runs all `ratchet_window_size`
attempts without a successful decryption, the handler's key material at the
frame's key index equals its pre-attempt value when `decryptFrame` returns —
the initial material is restored through `SetKeyFromMaterial` — and the frame
is dropped.  The hypotheses put the call on the ratchet path: a sink and
enabled cryption, no magic-byte hit, a well-formed trailer, a key set
installed at the frame's (in-ring) key index, the stale-failure gate passed,
a positive ratchet window, and AES-GCM failing for the installed key and for
every ratcheted key of the window. -/
theorem c3_ratchet_rollback (opts : KeyProviderOptions) (type : MediaType)
    (h : ParticipantKeyHandler) (lastDec : FrameCryptionState) (f : Frame)
    (ks : KeySet)
    (hlen : f.data.length ≠ 0)
    (hmagic : ¬ MagicHit opts.uncryptedMagicBytes f.data)
    (hiv : f.data.getD (f.data.length - 2) 0 = 12)
    (hring : f.data.getD (f.data.length - 1) 0 < opts.keyRingSize)
    (hkey : h.getKeySet (f.data.getD (f.data.length - 1) 0) = some ks)
    (hgate : ¬ (lastDec = FrameCryptionState.kDecryptionFailed ∧ ¬ h.hasValidKey))
    (hwin : 0 < opts.ratchetWindowSize)
    (hfail0 : aesGcmOpen ks.encryption_key (decIv f.data) (decHeader type f)
        (decCt type f) = none)
    (hfailj : ∀ j, 1 ≤ j → j ≤ opts.ratchetWindowSize →
      aesGcmOpen (deriveKeys (ks.material + j) opts.ratchetSalt).encryption_key
        (decIv f.data) (decHeader type f) (decCt type f) = none) :
    (decryptFrame opts type (some h) true true lastDec f).out = none
    ∧ ((decryptFrame opts type (some h) true true lastDec f).handler.bind
          (fun h' => h'.getKeySet (f.data.getD (f.data.length - 1) 0))).map
        KeySet.material = some ks.material := by
  have hloop := ratchetLoop_allFail opts.ratchetSalt
    (f.data.getD (f.data.length - 1) 0) (decIv f.data) (decHeader type f)
    (decCt type f) opts.ratchetWindowSize ks.material 0 h lastDec hfailj
  have hres : decryptFrame opts type (some h) true true lastDec f =
      ⟨none,
        some ((h.setKeyFromMaterial opts.ratchetSalt ks.material
            (f.data.getD (f.data.length - 1) 0)).decryptionFailure).1,
        (emitIfChanged FrameCryptionState.kDecryptionFailed lastDec).1,
        (emitIfChanged FrameCryptionState.kDecryptionFailed lastDec).2,
        some true⟩ := by
    simp only [decryptFrame, not_true, or_false, if_false, if_neg hlen,
      if_neg hmagic, hiv, ne_eq, not_true_eq_false, if_pos hring, hkey,
      if_neg hgate, hfail0, hwin, if_true, hloop, decryptionFailure_snd,
      true_or, List.nil_append]
  rw [hres]
  refine ⟨rfl, ?_⟩
  have hkey' : h.keys.getD (f.data.getD (f.data.length - 1) 0) none = some ks := hkey
  have hki := getD_some_lt (x := ks) hkey'
  show (((h.setKeyFromMaterial opts.ratchetSalt ks.material
      (f.data.getD (f.data.length - 1) 0)).decryptionFailure).1.getKeySet
        (f.data.getD (f.data.length - 1) 0)).map KeySet.material = some ks.material
  rw [show ((h.setKeyFromMaterial opts.ratchetSalt ks.material
      (f.data.getD (f.data.length - 1) 0)).decryptionFailure).1.getKeySet
        (f.data.getD (f.data.length - 1) 0) =
      some (deriveKeys ks.material opts.ratchetSalt) from by
    unfold ParticipantKeyHandler.decryptionFailure ParticipantKeyHandler.getKeySet
      ParticipantKeyHandler.setKeyFromMaterial
    exact getD_set_self _ _ _ _ hki]
  rfl

/-- C3 witness: a 14-byte audio payload whose ciphertext region is empty
(shorter than the tag) fails every open, so one ratchet attempt runs and the
material 7 is restored at index 0 while the frame is dropped. -/
theorem c3_ratchet_rollback_witness :
    (decryptFrame ⟨5, 1, [], 1, false⟩ MediaType.audio
        (some ⟨[some (deriveKeys 7 5)], true, 0⟩) true true
        FrameCryptionState.kNew
        ⟨1, 2, false, Codec.generic, [0, 1, 2, 3, 4, 5, 6, 7, 8, 9, 10, 11, 12, 0]⟩).out
      = none
    ∧ ((decryptFrame ⟨5, 1, [], 1, false⟩ MediaType.audio
        (some ⟨[some (deriveKeys 7 5)], true, 0⟩) true true
        FrameCryptionState.kNew
        ⟨1, 2, false, Codec.generic, [0, 1, 2, 3, 4, 5, 6, 7, 8, 9, 10, 11, 12, 0]⟩).handler.bind
          (fun h' => h'.getKeySet
            ((⟨1, 2, false, Codec.generic, [0, 1, 2, 3, 4, 5, 6, 7, 8, 9, 10, 11, 12, 0]⟩ : Frame).data.getD
              (([0, 1, 2, 3, 4, 5, 6, 7, 8, 9, 10, 11, 12, 0] : Bytes).length - 1) 0))).map
        KeySet.material = some (7 : Nat) :=
  c3_ratchet_rollback ⟨5, 1, [], 1, false⟩ MediaType.audio
    ⟨[some (deriveKeys 7 5)], true, 0⟩ FrameCryptionState.kNew
    ⟨1, 2, false, Codec.generic, [0, 1, 2, 3, 4, 5, 6, 7, 8, 9, 10, 11, 12, 0]⟩
    (deriveKeys 7 5)
    (by decide) (by decide) (by decide) (by decide) rfl (by decide) (by decide)
    (by decide)
    (fun j hj1 hj2 => by
      have hj2' : j ≤ 1 := hj2
      have hj : j = 1 := by omega
      subst hj
      decide)

/-- C6: corrected — counterexample. A frame whose trailer byte `len - 2` is 5
(≠ 12) makes the decrypt path transition `last_dec_error_` to
`kDecryptionFailed` and dispatch it (source lines 514-523) without ever
consulting `DecryptionFailure()`: the handler is untouched (failure counter
still 0) and the instrumentation field records no consultation. -/
theorem c6_decryptionFailed_counterexample :
    (decryptFrame ⟨5, 0, [], 1, false⟩ MediaType.audio
        (some ⟨[some (deriveKeys 0 5)], true, 0⟩) true true
        FrameCryptionState.kOk ⟨1, 2, false, Codec.generic, [5, 7]⟩).events =
      [FrameCryptionState.kDecryptionFailed]
    ∧ (decryptFrame ⟨5, 0, [], 1, false⟩ MediaType.audio
        (some ⟨[some (deriveKeys 0 5)], true, 0⟩) true true
        FrameCryptionState.kOk ⟨1, 2, false, Codec.generic, [5, 7]⟩).lastDec =
      FrameCryptionState.kDecryptionFailed
    ∧ (decryptFrame ⟨5, 0, [], 1, false⟩ MediaType.audio
        (some ⟨[some (deriveKeys 0 5)], true, 0⟩) true true
        FrameCryptionState.kOk ⟨1, 2, false, Codec.generic, [5, 7]⟩).consulted = none
    ∧ (decryptFrame ⟨5, 0, [], 1, false⟩ MediaType.audio
        (some ⟨[some (deriveKeys 0 5)], true, 0⟩) true true
        FrameCryptionState.kOk ⟨1, 2, false, Codec.generic, [5, 7]⟩).handler =
      some ⟨[some (deriveKeys 0 5)], true, 0⟩ :=
  ⟨rfl, rfl, rfl, rfl⟩

/-- C6: the amended claim — on every decrypt call, `kDecryptionFailed` is
dispatched only when either the trailer's IV-length byte differs from 12
(the malformed-trailer path, which does not consult the handler) or
`DecryptionFailure()` was consulted on this call and returned true. -/
theorem c6_decryptionFailed_amended (opts : KeyProviderOptions) (type : MediaType)
    (handler? : Option ParticipantKeyHandler) (enabled sinkPresent : Bool)
    (lastDec : FrameCryptionState) (f : Frame)
    (hmem : FrameCryptionState.kDecryptionFailed ∈
      (decryptFrame opts type handler? enabled sinkPresent lastDec f).events) :
    f.data.getD (f.data.length - 2) 0 ≠ 12
    ∨ (decryptFrame opts type handler? enabled sinkPresent lastDec f).consulted =
        some true := by
  have hchar : f.data.getD (f.data.length - 2) 0 ≠ 12
      ∨ (decryptFrame opts type handler? enabled sinkPresent lastDec f).consulted =
          some true
      ∨ FrameCryptionState.kDecryptionFailed ∉
          (decryptFrame opts type handler? enabled sinkPresent lastDec f).events := by
    simp only [decryptFrame]
    repeat' split
    any_goals
      refine Or.inr (Or.inr ?_)
      intro hc
      rcases List.mem_append.mp hc with hc1 | hc2
      exacts [FrameCryptionState.noConfusion
          (ratchetLoop_events_mem _ _ _ _ _ _ _ _ _ _ _ hc1),
        FrameCryptionState.noConfusion (emit_mem hc2)]
    all_goals first
      | (refine Or.inl ?_; assumption)
      | (refine Or.inr (Or.inr (dfail_not_mem_emit _ _ ?_)); decide)
      | (refine Or.inr (Or.inr ?_); simp; done)
      | (refine Or.inr (Or.inl ?_); simp [decryptionFailure_snd])
  rcases hchar with h1 | h2 | h3
  · exact Or.inl h1
  · exact Or.inr h2
  · exact absurd hmem h3

/-- C6 witness for the amended claim: a junk 14-byte frame with a well-formed
trailer fails to decrypt; `kDecryptionFailed` is dispatched and the
consultation returned true. -/
theorem c6_decryptionFailed_amended_witness :
    FrameCryptionState.kDecryptionFailed ∈
      (decryptFrame ⟨5, 0, [], 1, false⟩ MediaType.audio
        (some ⟨[some (deriveKeys 0 5)], true, 0⟩) true true
        FrameCryptionState.kOk
        ⟨1, 2, false, Codec.generic, [0, 1, 2, 3, 4, 5, 6, 7, 8, 9, 10, 11, 12, 0]⟩).events
    ∧ ((⟨1, 2, false, Codec.generic, [0, 1, 2, 3, 4, 5, 6, 7, 8, 9, 10, 11, 12, 0]⟩ : Frame).data.getD
          (([0, 1, 2, 3, 4, 5, 6, 7, 8, 9, 10, 11, 12, 0] : Bytes).length - 2) 0 ≠ 12
        ∨ (decryptFrame ⟨5, 0, [], 1, false⟩ MediaType.audio
            (some ⟨[some (deriveKeys 0 5)], true, 0⟩) true true
            FrameCryptionState.kOk
            ⟨1, 2, false, Codec.generic, [0, 1, 2, 3, 4, 5, 6, 7, 8, 9, 10, 11, 12, 0]⟩).consulted =
          some true) :=
  ⟨by decide,
    c6_decryptionFailed_amended ⟨5, 0, [], 1, false⟩ MediaType.audio
      (some ⟨[some (deriveKeys 0 5)], true, 0⟩) true true FrameCryptionState.kOk
      ⟨1, 2, false, Codec.generic, [0, 1, 2, 3, 4, 5, 6, 7, 8, 9, 10, 11, 12, 0]⟩
      (by decide)⟩

/-- C8: confirmed. Over any sequence of frames processed by one transformer,
for each direction the dispatched notifications together with the stored
`last_enc_error_` (respectively `last_dec_error_`) form a chain with no two
adjacent equal values — the first notification differs from the stored state,
no notification repeats its predecessor, and the stored state always equals
the last dispatched value (it is updated before the dispatch).  This is the
claim's "never invoked twice in a row with the same FrameCryptionState value
per direction". -/
theorem c8_edge_triggered (opts : KeyProviderOptions) (type : MediaType)
    (keyIndex : Nat) (enabled sinkPresent : Bool) (s0 : TState) (ops : List Op) :
    ChainOk s0.lastEnc
      (runOps opts type keyIndex enabled sinkPresent s0 ops).state.lastEnc
      (runOps opts type keyIndex enabled sinkPresent s0 ops).encEvents
    ∧ ChainOk s0.lastDec
      (runOps opts type keyIndex enabled sinkPresent s0 ops).state.lastDec
      (runOps opts type keyIndex enabled sinkPresent s0 ops).decEvents :=
  runOps_chainOk opts type keyIndex enabled sinkPresent ops s0

/-- C9: corrected — counterexample. A one-byte audio payload proceeds past
the disabled/empty and magic-byte checks, yet the trailer read at `len - 2`
already underflows the size_t index arithmetic, so the claimed in-bounds
property fails. -/
theorem c9_bounds_counterexample :
    decryptProceedsPastEarlyChecks ⟨5, 0, [], 1, false⟩ true true
      ⟨1, 2, false, Codec.generic, [5]⟩ = true
    ∧ decryptAccessesInBounds
        (⟨1, 2, false, Codec.generic, [5]⟩ : Frame).data.length
        (getUnencryptedBytes MediaType.audio ⟨1, 2, false, Codec.generic, [5]⟩)
        (decBody MediaType.audio ⟨1, 2, false, Codec.generic, [5]⟩).length
        (frameIsH264 MediaType.audio ⟨1, 2, false, Codec.generic, [5]⟩) = false := by
  decide

/-- C9: the amended claim — for a non-H264 frame whose payload length is at
least `unencrypted_bytes + 14`, every pre-AES-GCM access of the decrypt path
(trailer reads, IV extraction, both buffer allocations, and — vacuously for
non-H264 — the unescaping scan bound) stays in bounds. -/
theorem c9_bounds_amended (type : MediaType) (f : Frame)
    (hh : frameIsH264 type f = false)
    (hlen : getUnencryptedBytes type f + 14 ≤ f.data.length) :
    decryptAccessesInBounds f.data.length (getUnencryptedBytes type f)
      (decBody type f).length (frameIsH264 type f) = true := by
  have hb : (decBody type f).length = f.data.length - getUnencryptedBytes type f := by
    simp [decBody, hh]
  rw [decryptAccessesInBounds, hh, hb]
  simp only [Bool.not_false, Bool.true_or, Bool.and_true, Bool.and_eq_true,
    decide_eq_true_eq]
  omega

/-- C9 witness: a 15-byte audio payload satisfies every bounds condition. -/
theorem c9_bounds_amended_witness :
    frameIsH264 MediaType.audio ⟨1, 2, false, Codec.generic, List.replicate 15 0⟩ = false
    ∧ decryptAccessesInBounds
        (⟨1, 2, false, Codec.generic, List.replicate 15 0⟩ : Frame).data.length
        (getUnencryptedBytes MediaType.audio ⟨1, 2, false, Codec.generic, List.replicate 15 0⟩)
        (decBody MediaType.audio ⟨1, 2, false, Codec.generic, List.replicate 15 0⟩).length
        (frameIsH264 MediaType.audio ⟨1, 2, false, Codec.generic, List.replicate 15 0⟩) = true :=
  ⟨by decide,
    c9_bounds_amended MediaType.audio ⟨1, 2, false, Codec.generic, List.replicate 15 0⟩
      (by decide) (by decide)⟩

end FrameCryptor
